import Mathlib

/-!
Verification of the miniswap-application scraper/downloader pipeline.

The Python sources are shallowly embedded: pure string manipulation is
modelled on `List Char` (Python `str` methods are reimplemented faithfully
for the ASCII fragment the program manipulates), HTML documents are
modelled as a tree of element/text nodes mirroring what BeautifulSoup
exposes, network calls are abstracted as oracle functions whose results
range over the outcomes the code distinguishes (`200` response, other
status, SSL certificate failure, timeout, other request exception), and
Python exceptions are modelled with `Except`.
-/

namespace Miniswap

/-! ## Python string primitives -/

/-- Whitespace for Python `str.split()` / `str.strip()` (ASCII fragment):
space, tab, newline, carriage return, form feed, vertical tab. -/
def isPyWS (c : Char) : Bool :=
  decide (c.toNat = 32 ∨ c.toNat = 9 ∨ c.toNat = 10 ∨ c.toNat = 13 ∨ c.toNat = 12 ∨ c.toNat = 11)

/-- Python `str.lower()` on one character (ASCII fragment). -/
def lowerChar (c : Char) : Char :=
  if 65 ≤ c.toNat ∧ c.toNat ≤ 90 then Char.ofNat (c.toNat + 32) else c

/-- Python `str.startswith` on character lists. -/
def startsWithChars : List Char → List Char → Bool
| _, [] => true
| [], _ :: _ => false
| c :: cs, p :: ps => if c = p then startsWithChars cs ps else false

/-- Python `str.endswith` on character lists. -/
def endsWithChars (l suffixChars : List Char) : Bool :=
  startsWithChars l.reverse suffixChars.reverse

/-- Python `in` (substring containment) on character lists. -/
def containsChars : List Char → List Char → Bool
| [], pat => startsWithChars [] pat
| c :: rest, pat => if startsWithChars (c :: rest) pat then true else containsChars rest pat

/-- Python `str.strip()` at the character-list level. -/
def pyStripList (l : List Char) : List Char :=
  ((l.dropWhile isPyWS).reverse.dropWhile isPyWS).reverse

/-- Python `str.strip()`. -/
def pyStrip (s : String) : String := ⟨pyStripList s.data⟩

/-- Helper for `pySplit`: accumulates the current word (reversed) while
scanning; whitespace runs separate words and produce no empty tokens. -/
def pyWordsAux : List Char → List Char → List (List Char)
| [], acc => if acc.isEmpty then [] else [acc.reverse]
| c :: rest, acc =>
    if isPyWS c then
      if acc.isEmpty then pyWordsAux rest [] else acc.reverse :: pyWordsAux rest []
    else pyWordsAux rest (c :: acc)

/-- Python `str.split()` with no argument: split on whitespace runs,
discarding empty tokens. -/
def pySplit (s : String) : List String :=
  (pyWordsAux s.data []).map (fun l => ⟨l⟩)

/-- Helper for `splitOnSlash`: Python `str.split('/')`, which keeps empty
pieces between consecutive separators. -/
def splitOnSlashAux : List Char → List Char → List (List Char)
| [], acc => [acc.reverse]
| c :: rest, acc =>
    if c = '/' then acc.reverse :: splitOnSlashAux rest [] else splitOnSlashAux rest (c :: acc)

/-- Python `str.split('/')`. -/
def splitOnSlash (s : String) : List String :=
  (splitOnSlashAux s.data []).map (fun l => ⟨l⟩)

/-! ## Python exceptions -/

/-- The Python exception classes the embedded code can raise. -/
inductive PyErr where
  | valueError (msg : String)
  | attributeError
deriving DecidableEq, Repr

instance {ε α : Type} [DecidableEq ε] [DecidableEq α] : DecidableEq (Except ε α) := fun x y =>
  match x, y with
  | .ok a, .ok b =>
      if h : a = b then .isTrue (by rw [h]) else .isFalse (by simp [h])
  | .error a, .error b =>
      if h : a = b then .isTrue (by rw [h]) else .isFalse (by simp [h])
  | .ok _, .error _ => .isFalse (by simp)
  | .error _, .ok _ => .isFalse (by simp)

/-! ## lib/sanitizer.py -/

/-- `sanitizeYear` from `lib/sanitizer.py`: split the date on whitespace;
with exactly three parts return the third, otherwise raise
`ValueError("Date format is incorrect")`. -/
def sanitizeYear (date : String) : Except PyErr String :=
  match pySplit date with
  | [_, _, year] => .ok year
  | _ => .error (.valueError "Date format is incorrect")

/-- `sanitizeSKU` from `lib/sanitizer.py`: split the link on `/`; with at
least three parts take the third, stripping a leading `gw-` if present,
otherwise raise `ValueError`. -/
def sanitizeSKU (skuLink : String) : Except PyErr String :=
  match splitOnSlash skuLink with
  | _ :: _ :: sku :: _ =>
      if startsWithChars sku.data ['g', 'w', '-'] then .ok ⟨sku.data.drop 3⟩ else .ok sku
  | _ => .error (.valueError "SKU link format is incorrect")

/-! ## Network outcomes and lib/retryStrategy.py, lib/fetchWeb.py -/

/-- Outcome of one `requests.get` call, as distinguished by the code:
a response with a status code, an `SSLError`, a `Timeout`, or another
`RequestException`.  (`SSLError` and `Timeout` are subclasses of
`RequestException` in `requests`; the except-clause order in each source
function determines which handler catches them.) -/
inductive ReqResult where
  | ok (text : String) (status : Nat)
  | sslError
  | timeout
  | reqError (msg : String)
deriving DecidableEq, Repr

/-- `withSSLRetry` from `lib/retryStrategy.py`.  `requestFunc` is the
caller-supplied request callable, taking the `verify` flag.  Attempt 1 runs
with `verify=True`; only an `SSLError` triggers the single fallback attempt
with `verify=False`.  A `Timeout` or other `RequestException` on attempt 1
is caught by the generic handler and returns `(None, False)`; on the
fallback attempt every `RequestException` (including `SSLError` and
`Timeout`) returns `(None, False)`. -/
def withSSLRetry (requestFunc : Bool → ReqResult) : Option String × Bool :=
  match requestFunc true with
  | .ok result status => if status = 200 then (some result, true) else (none, false)
  | .sslError =>
      match requestFunc false with
      | .ok result status => if status = 200 then (some result, true) else (none, false)
      | _ => (none, false)
  | _ => (none, false)

/-- The `verify` flags of the attempts `withSSLRetry` actually makes, in
order: `[true]` unless attempt 1 raises `SSLError`, in which case
`[true, false]`. -/
def withSSLRetryAttempts (requestFunc : Bool → ReqResult) : List Bool :=
  match requestFunc true with
  | .sslError => [true, false]
  | _ => [true]

/-- `fetchKitDetails` from `lib/fetchWeb.py` (the HTTP call for the fixed
kit URL is abstracted as `req`, taking the `verify` flag): identical
two-tier structure to `withSSLRetry`, returning the body on a 200 and
`None` otherwise. -/
def fetchKitDetails (req : Bool → ReqResult) : Option String :=
  match req true with
  | .ok text status => if status = 200 then some text else none
  | .sslError =>
      match req false with
      | .ok text status => if status = 200 then some text else none
      | _ => none
  | _ => none

/-- The `verify` flags of the attempts `fetchKitDetails` makes. -/
def fetchKitDetailsAttempts (req : Bool → ReqResult) : List Bool :=
  match req true with
  | .sslError => [true, false]
  | _ => [true]

/-- One loop iteration of `fetchListings` from `lib/fetchWeb.py`: the
two-tier attempt for a single listing page, yielding the body on 200 and
`None` on any failure. -/
def fetchPage (req : Bool → ReqResult) : Option String :=
  match req true with
  | .ok text status => if status = 200 then some text else none
  | .sslError =>
      match req false with
      | .ok text status => if status = 200 then some text else none
      | _ => none
  | _ => none

/-- `fetchListings` from `lib/fetchWeb.py`, unrolled over the page count:
`for currentPage in range(startPage, endPage + 1)` yields one value per
page.  `req p v` is the outcome of `requests.get` for page `p` with
verification flag `v`. -/
def fetchListingsAux (req : Nat → Bool → ReqResult) : Nat → Nat → List (Option String)
| _, 0 => []
| startPage, n + 1 => fetchPage (req startPage) :: fetchListingsAux req (startPage + 1) n

/-- The full sequence yielded by the `fetchListings` generator of
`lib/fetchWeb.py` over the inclusive range `[startPage, endPage]`. -/
def fetchListings (req : Nat → Bool → ReqResult) (startPage endPage : Nat) : List (Option String) :=
  fetchListingsAux req startPage (endPage + 1 - startPage)

/-- One loop iteration of `fetchListings` from `lib_scraper/fetchWeb.py`
(session variant): no SSL fallback tier; `Timeout` and every other
`RequestException` yield `None`, as does a non-200 status. -/
def fetchPageSession (r : ReqResult) : Option String :=
  match r with
  | .ok text status => if status = 200 then some text else none
  | _ => none

/-- `fetchListings` from `lib_scraper/fetchWeb.py`, unrolled over the page
count. -/
def fetchListingsSessionAux (req : Nat → ReqResult) : Nat → Nat → List (Option String)
| _, 0 => []
| startPage, n + 1 => fetchPageSession (req startPage) :: fetchListingsSessionAux req (startPage + 1) n

/-- The full sequence yielded by the session-based `fetchListings`
generator of `lib_scraper/fetchWeb.py` over `[startPage, endPage]`. -/
def fetchListingsSession (req : Nat → ReqResult) (startPage endPage : Nat) : List (Option String) :=
  fetchListingsSessionAux req startPage (endPage + 1 - startPage)

/-! ## HTML documents as BeautifulSoup exposes them -/

mutual
/-- An HTML node: an element with tag name, attributes and children, or a
text node (a `NavigableString`). -/
inductive Node where
  | elem (tag : String) (attrs : List (String × String)) (children : NodeList)
  | text (s : String)
/-- A list of sibling nodes (separate inductive so that all tree
recursions are structural). -/
inductive NodeList where
  | nil
  | cons (head : Node) (tail : NodeList)
end

/-- The attribute lookup `tag.get(key)` / `tag[key]`; `None` for text
nodes or absent attributes. -/
def Node.attr : Node → String → Option String
| .elem _ attrs _, key => (attrs.find? (fun p => p.1 == key)).map (fun p => p.2)
| .text _, _ => none

/-- Tag-name test used by `find`/`find_all(name)`. -/
def Node.tagIs : Node → String → Bool
| .elem t _ _, tag => t == tag
| .text _, _ => false

/-- BeautifulSoup matches a `class` filter against the whitespace-split
word list of the `class` attribute. -/
def hasClass (n : Node) (cls : String) : Bool :=
  match n.attr "class" with
  | some v => (pySplit v).contains cls
  | none => false

mutual
/-- All nodes of a sibling list and their descendants in document order
(preorder), i.e. the search space of `find_all` on a soup. -/
def allNodes : NodeList → List Node
| .nil => []
| .cons n rest => n :: (subNodes n ++ allNodes rest)
/-- All proper descendants of one node in document order, i.e. the search
space of `tag.find_all`. -/
def subNodes : Node → List Node
| .text _ => []
| .elem _ _ cs => allNodes cs
end

/-- `tag.find_all(...)` restricted by a predicate. -/
def findAllIn (n : Node) (p : Node → Bool) : List Node := (subNodes n).filter p

/-- `tag.find(...)`: first matching descendant or `None`. -/
def findIn (n : Node) (p : Node → Bool) : Option Node := (subNodes n).find? p

/-- `soup.find_all(...)` over the whole document. -/
def soupFindAll (soup : NodeList) (p : Node → Bool) : List Node := (allNodes soup).filter p

/-- `soup.find(...)` over the whole document. -/
def soupFind (soup : NodeList) (p : Node → Bool) : Option Node := (allNodes soup).find? p

mutual
/-- Characters of all text descendants of a sibling list, in order. -/
def charsOfList : NodeList → List Char
| .nil => []
| .cons n rest => charsOf n ++ charsOfList rest
/-- Characters of all text descendants of one node (`tag.text`). -/
def charsOf : Node → List Char
| .text s => s.data
| .elem _ _ cs => charsOfList cs
end

/-- The `.text` property of a tag: concatenation of all descendant
strings. -/
def Node.textAll (n : Node) : String := ⟨charsOf n⟩

mutual
/-- Characters gathered by `get_text(strip=True)` over a sibling list:
each string contributes stripped. -/
def charsStripList : NodeList → List Char
| .nil => []
| .cons n rest => charsStrip n ++ charsStripList rest
/-- Characters gathered by `get_text(strip=True)` over one node. -/
def charsStrip : Node → List Char
| .text s => pyStripList s.data
| .elem _ _ cs => charsStripList cs
end

/-- `tag.get_text(strip=True)` with the default empty separator. -/
def getTextStrip (n : Node) : String := ⟨charsStrip n⟩

/-- The `.string` property: a text node is its own string; an element with
exactly one child delegates to it; otherwise `None`. -/
def tagString : Node → Option String
| .text s => some s
| .elem _ _ (.cons c .nil) => tagString c
| .elem _ _ _ => none

/-! ## lib_scraper/scraper.py (also imported as lib/scraper.py) -/

/-- A single iteration body of the row loop in `parseListings`: returns
`some sku` when the row survives all filters, `none` when the row is
skipped, and an exception when one is raised.  Mirrors the source order:
require two `td` cells; find the `date-display-single` span (skip if
absent); `sanitizeYear` on its text (`ValueError` escapes); skip year
2025; `td2.find("a")` (absent makes `.get` raise `AttributeError`);
`sanitizeSKU` on the stripped href (`ValueError` escapes); keep only SKUs
starting with `99`. -/
def parseListingRow (row : Node) : Except PyErr (Option String) :=
  match findAllIn row (fun n => n.tagIs "td") with
  | td1 :: td2 :: _ =>
      match findIn td1 (fun n => n.tagIs "span" && hasClass n "date-display-single") with
      | none => .ok none
      | some releaseDateSpan =>
          match sanitizeYear releaseDateSpan.textAll with
          | .error e => .error e
          | .ok year =>
              if year = "2025" then .ok none
              else
                match findIn td2 (fun n => n.tagIs "a") with
                | none => .error .attributeError
                | some a =>
                    match sanitizeSKU (pyStrip ((a.attr "href").getD "")) with
                    | .error e => .error e
                    | .ok sku =>
                        if startsWithChars sku.data ['9', '9'] then .ok (some sku) else .ok none
  | _ => .ok none

/-- The row loop of `parseListings`, accumulating kept SKUs in row order;
an exception raised in any row escapes and discards the whole result. -/
def parseListingRows : List Node → Except PyErr (List String)
| [] => .ok []
| row :: rest =>
    match parseListingRow row with
    | .error e => .error e
    | .ok none => parseListingRows rest
    | .ok (some sku) =>
        match parseListingRows rest with
        | .error e => .error e
        | .ok skus => .ok (sku :: skus)

/-- `parseListings` from the listing scraper: locate the
`table.views-table` (absence yields an empty list with a warning), then
run the row loop over all `tr` descendants. -/
def parseListings (soup : NodeList) : Except PyErr (List String) :=
  match soupFind soup (fun n => n.tagIs "table" && hasClass n "views-table") with
  | none => .ok []
  | some table => parseListingRows (findAllIn table (fun n => n.tagIs "tr"))

/-- The record built by `parseKitDetails` and appended to the store. -/
structure KitDetails where
  name : String
  description : Option String
  last_known_price : String
  sku : String
deriving DecidableEq, Repr

/-- The marker phrase locating the price label. -/
def priceMarker : List Char := "Last known price:".data

/-- The predicate of `soup.find("b", string=lambda s: s and "Last known
price:" in s)`. -/
def isPriceLabel (n : Node) : Bool :=
  n.tagIs "b" &&
    (match tagString n with
     | some s => containsChars s.data priceMarker
     | none => false)

/-- `find_next_sibling(text=True)`: the first text node among the
following siblings, or `None`. -/
def firstStringSibling : NodeList → Option String
| .nil => none
| .cons (.text s) _ => some s
| .cons (.elem _ _ _) rest => firstStringSibling rest

mutual
/-- Document-order search for the price label within a sibling list;
on a hit returns `some r` where `r` is the result of
`find_next_sibling(text=True)` at that position. -/
def findPriceInList : NodeList → Option (Option String)
| .nil => none
| .cons n rest =>
    if isPriceLabel n then some (firstStringSibling rest)
    else
      match findPriceIn n with
      | some r => some r
      | none => findPriceInList rest
/-- Document-order search for the price label among one node's
descendants. -/
def findPriceIn : Node → Option (Option String)
| .text _ => none
| .elem _ _ cs => findPriceInList cs
end

/-- The `" ".join(...)` of Python. -/
def joinSpace : List String → String
| [] => ""
| [s] => s
| s :: rest => s ++ " " ++ joinSpace rest

/-- The description loop of `parseKitDetails`: first
`text-inner-container` whose inline style does not contain
`display: none` yields the space-joined stripped text of its `p`
descendants; `None` when every container is hidden or none exists. -/
def firstVisibleDescription : List Node → Option String
| [] => none
| container :: rest =>
    if containsChars ((container.attr "style").getD "").data "display: none".data then
      firstVisibleDescription rest
    else
      some (joinSpace ((findAllIn container (fun n => n.tagIs "p")).map getTextStrip))

/-- `parseKitDetails` from the listing scraper.  The unconditional lookups
of the source fault on missing markup: a missing `div#main` or missing
`h1.title` raises `AttributeError` (attribute access on `None`), as does
a missing price label or a price label with no following text sibling. -/
def parseKitDetails (soup : NodeList) (sku : String) : Except PyErr KitDetails :=
  match soupFind soup (fun n => n.tagIs "div" && (n.attr "id" == some "main")) with
  | none => .error .attributeError
  | some mainContainer =>
      match findIn mainContainer (fun n => n.tagIs "h1" && hasClass n "title") with
      | none => .error .attributeError
      | some h1 =>
          let title := pyStrip h1.textAll
          match findPriceInList soup with
          | none => .error .attributeError
          | some none => .error .attributeError
          | some (some priceText) =>
              let lastKnownPrice := pyStrip priceText
              let containers :=
                soupFindAll soup (fun n => n.tagIs "div" && hasClass n "text-inner-container")
              .ok ⟨title, firstVisibleDescription containers, lastKnownPrice, sku⟩

/-! ## lib_scraper/manageJSON.py -/

/-- Observable states of the persistent store file `output.json`:
absent, present but not valid JSON (includes the empty file), a JSON
array of records, or valid JSON that is not an array. -/
inductive StoreFile where
  | missing
  | invalidJson
  | jsonArr (items : List KitDetails)
  | jsonOther
deriving DecidableEq

/-- `append_to_json` from `lib_scraper/manageJSON.py`: load the file
(`FileNotFoundError` and `json.JSONDecodeError` fall back to the empty
list), append the record, rewrite the whole file with `json.dump`.
A valid-JSON non-array file loads, but `data.append` then raises
`AttributeError`. -/
def append_to_json (item : KitDetails) : StoreFile → Except PyErr StoreFile
| .missing => .ok (.jsonArr [item])
| .invalidJson => .ok (.jsonArr [item])
| .jsonArr xs => .ok (.jsonArr (xs ++ [item]))
| .jsonOther => .error .attributeError

/-! ## src/scraper.py (the listing drive) -/

/-- The inner kit loop of `src/scraper.py`: for each SKU fetch the detail
page (a `None` fetch is skipped with a log) and parse it; a parse
exception is not caught and escapes, discarding the rest of the run.
The store is the list of records appended so far. -/
def scrapeKits (fetchDetails : String → Option NodeList) :
    List String → List KitDetails → Except PyErr (List KitDetails)
| [], store => .ok store
| sku :: rest, store =>
    match fetchDetails sku with
    | none => scrapeKits fetchDetails rest store
    | some soup =>
        match parseKitDetails soup sku with
        | .error e => .error e
        | .ok details => scrapeKits fetchDetails rest (store ++ [details])

/-- The page loop of `src/scraper.py`: skip failed pages, parse the
listing (an exception escapes), then run the kit loop. -/
def runScraper (fetchDetails : String → Option NodeList) :
    List (Option NodeList) → List KitDetails → Except PyErr (List KitDetails)
| [], store => .ok store
| none :: rest, store => runScraper fetchDetails rest store
| some page :: rest, store =>
    match parseListings page with
    | .error e => .error e
    | .ok skus =>
        match scrapeKits fetchDetails skus store with
        | .error e => .error e
        | .ok store2 => runScraper fetchDetails rest store2

/-! ## lib_downloader/normalizer.py, utils.py, managePDF.py,
downloadOrchestrator.py -/

/-- Characters kept by `re.sub(r"[^a-z0-9\s-]", "", name)`: lowercase
ASCII letters, digits, whitespace, hyphen. -/
def isKeptChar (c : Char) : Bool :=
  decide ((97 ≤ c.toNat ∧ c.toNat ≤ 122) ∨ (48 ≤ c.toNat ∧ c.toNat ≤ 57)) ||
    isPyWS c || decide (c.toNat = 45)

/-- `name.replace("â€“", "-")`: left-to-right, non-overlapping replacement
of the three-character mojibake sequence. -/
def replaceMojibake : List Char → List Char
| [] => []
| [c] => [c]
| [c1, c2] => [c1, c2]
| c1 :: c2 :: c3 :: rest =>
    if c1 = 'â' ∧ c2 = '€' ∧ c3 = '“' then '-' :: replaceMojibake rest
    else c1 :: replaceMojibake (c2 :: c3 :: rest)

/-- `normalizeName` from `lib_downloader/normalizer.py` at the
character-list level: lowercase, fix the mojibake dash, drop characters
outside `[a-z0-9\s-]`, strip. -/
def normalizeChars (l : List Char) : List Char :=
  pyStripList ((replaceMojibake (l.map lowerChar)).filter isKeptChar)

/-- `normalizeName` from `lib_downloader/normalizer.py`. -/
def normalizeName (s : String) : String := ⟨normalizeChars s.data⟩

/-- Python `str.replace(' ', '_')`. -/
def replaceSpaces (s : String) : String :=
  ⟨s.data.map (fun c => if c = ' ' then '_' else c)⟩

/-- `createPdfFilepath` from `lib_downloader/utils.py` (the same
construction appears inline in `downloader.py`):
`os.path.join(PDF_FOLDER, f"{sku}_{normalizedName.replace(' ', '_')}.pdf")`
with `PDF_FOLDER = "pdfs"`. -/
def createPdfFilepath (sku normalizedName : String) : String :=
  "pdfs/" ++ sku ++ "_" ++ replaceSpaces normalizedName ++ ".pdf"

/-- The anchors scanned by `getPdfLink`: `soup.find_all("a", href=True)`
in document order. -/
def anchorsWithHref (soup : NodeList) : List Node :=
  soupFindAll soup (fun n => n.tagIs "a" && (n.attr "href").isSome)

/-- The anchor loop of `getPdfLink` from `lib_downloader/managePDF.py`:
return the first href with `href.lower().endswith(".pdf")`. -/
def getPdfScan : List Node → Option String
| [] => none
| a :: rest =>
    let href := (a.attr "href").getD ""
    if endsWithChars (href.data.map lowerChar) ".pdf".data then some href else getPdfScan rest

/-- The pure parse of `getPdfLink` applied to a fetched candidate page:
first matching anchor href in page order, `None` when no anchor
matches. -/
def getPdfLink (soup : NodeList) : Option String :=
  getPdfScan (anchorsWithHref soup)

/-- A search-result candidate (`{title, url}`). -/
structure Candidate where
  title : String
  url : String
deriving DecidableEq, Repr

/-- `tryDownloadFromCandidates` from
`lib_downloader/downloadOrchestrator.py` (the same loop appears inline in
`downloader.py`): for each candidate in order, extract a PDF link
(`getLink`, abstracting `getPdfLink` with its network fetch) — if absent
continue; otherwise attempt the download to the filepath derived from the
kit's SKU and normalized name — on success stop with `True`, on failure
continue; `False` once all candidates are exhausted. -/
def tryDownloadFromCandidates (getLink : String → Option String)
    (downloadPdf : String → String → Bool) (name sku : String) : List Candidate → Bool
| [] => false
| cand :: rest =>
    match getLink cand.url with
    | none => tryDownloadFromCandidates getLink downloadPdf name sku rest
    | some pdfUrl =>
        if downloadPdf pdfUrl (createPdfFilepath sku (normalizeName name)) then true
        else tryDownloadFromCandidates getLink downloadPdf name sku rest

/-- Instrumented `tryDownloadFromCandidates`: additionally returns the
candidates attempted, in order, and the results of the `downloadPdf`
calls made, in order. -/
def tryDownloadTrace (getLink : String → Option String)
    (downloadPdf : String → String → Bool) (name sku : String) :
    List Candidate → Bool × List Candidate × List Bool
| [] => (false, [], [])
| cand :: rest =>
    match getLink cand.url with
    | none =>
        let r := tryDownloadTrace getLink downloadPdf name sku rest
        (r.1, cand :: r.2.1, r.2.2)
    | some pdfUrl =>
        if downloadPdf pdfUrl (createPdfFilepath sku (normalizeName name)) then
          (true, [cand], [true])
        else
          let r := tryDownloadTrace getLink downloadPdf name sku rest
          (r.1, cand :: r.2.1, false :: r.2.2)

/-- Whether one candidate would yield a successful download: a PDF link is
found on its page and the download of that link succeeds. -/
def candSucceeds (getLink : String → Option String)
    (downloadPdf : String → String → Bool) (name sku : String) (cand : Candidate) : Bool :=
  match getLink cand.url with
  | none => false
  | some pdfUrl => downloadPdf pdfUrl (createPdfFilepath sku (normalizeName name))

/-! ## Concrete fixtures used by the theorems -/

/-- A well-formed release-date cell (`17 Mar 2024`). -/
def tdDate : Node :=
  .elem "td" []
    (.cons (.elem "span" [("class", "date-display-single")] (.cons (.text "17 Mar 2024") .nil)) .nil)

/-- A well-formed SKU cell linking `/sets/gw-99123016002`. -/
def tdLink : Node :=
  .elem "td" []
    (.cons (.elem "a" [("href", "/sets/gw-99123016002")] (.cons (.text "Kit X") .nil)) .nil)

/-- A listing row that survives every filter. -/
def rowGood : Node := .elem "tr" [] (.cons tdDate (.cons tdLink .nil))

/-- A listing page with one well-formed row. -/
def listingPage : NodeList :=
  .cons (.elem "table" [("class", "views-table")] (.cons rowGood .nil)) .nil

/-- A release-date cell whose text `March 2024` has only two tokens. -/
def tdBadDate : Node :=
  .elem "td" []
    (.cons (.elem "span" [("class", "date-display-single")] (.cons (.text "March 2024") .nil)) .nil)

/-- A row with a malformed release date (and a well-formed SKU cell). -/
def rowBadDate : Node := .elem "tr" [] (.cons tdBadDate (.cons tdLink .nil))

/-- A listing page whose first row has a malformed date and whose second
row is well-formed. -/
def listingBad : NodeList :=
  .cons (.elem "table" [("class", "views-table")] (.cons rowBadDate (.cons rowGood .nil))) .nil

/-- The title heading of a detail page. -/
def h1Title : Node := .elem "h1" [("class", "title")] (.cons (.text " Kit X ") .nil)

/-- The price block of a detail page: the bold label followed by the price
text node. -/
def priceInfo : Node :=
  .elem "div" [("class", "set_main_info")]
    (.cons (.elem "b" [] (.cons (.text "Last known price:") .nil))
      (.cons (.text " £30.00 ") .nil))

/-- A detail page with title and price present. -/
def detailGood : NodeList :=
  .cons (.elem "div" [("id", "main")] (.cons h1Title (.cons priceInfo .nil))) .nil

/-- A detail page whose price label is absent. -/
def detailNoPrice : NodeList :=
  .cons (.elem "div" [("id", "main")] (.cons h1Title .nil)) .nil

/-- A detail page whose title heading is absent. -/
def detailNoTitle : NodeList :=
  .cons (.elem "div" [("id", "main")] (.cons priceInfo .nil)) .nil

/-- A candidate page whose second anchor ends in upper-case `.PDF` and
whose third also matches. -/
def candPageUpper : NodeList :=
  .cons (.elem "a" [("href", "x.txt")] .nil)
    (.cons (.elem "a" [("href", "Files/Manual.PDF")] .nil)
      (.cons (.elem "a" [("href", "other.pdf")] .nil) .nil))

/-- A candidate page with a single lower-case `.pdf` anchor. -/
def candPageLower : NodeList := .cons (.elem "a" [("href", "files/manual.pdf")] .nil) .nil

/-- A candidate page with no matching anchor. -/
def candPageNone : NodeList := .cons (.elem "a" [("href", "x.txt")] .nil) .nil

/-! ## C1 — trust fallback and the absent bounded-retry tier -/

/-- C1 (counterexample): the claim says a generic transport failure on the
first attempt "consumes one unit of the bounded-retry budget", i.e. the
fetch would go on to further attempts while budget remains.  In the cited
fetchers there is no bounded-retry tier at all: with a request that times
out, `withSSLRetry` and `fetchKitDetails` make exactly one attempt
(`verify=True` only) and fail the whole fetch immediately — no second
attempt of any kind is ever made. -/
theorem withSSLRetry_generic_failure_single_attempt :
    withSSLRetryAttempts (fun _ => .timeout) = [true] ∧
    withSSLRetry (fun _ => .timeout) = (none, false) ∧
    fetchKitDetailsAttempts (fun _ => .timeout) = [true] ∧
    fetchKitDetails (fun _ => .timeout) = none :=
  ⟨rfl, rfl, rfl, rfl⟩

/-- C1 (amended): for every fetch through `withSSLRetry` or
`fetchKitDetails`, an `SSLError` on the verified first attempt triggers
exactly one immediate retry with verification disabled, and a 200 response
on that fallback yields success; a generic `RequestException` or `Timeout`
on the first attempt never triggers the verification-disabled fallback and
makes the fetch fail immediately, with no further attempt (these fetchers
have no bounded-retry loop). -/
theorem withSSLRetry_trust_fallback (req : Bool → ReqResult) :
    (∀ t, req true = .sslError → req false = .ok t 200 →
      withSSLRetry req = (some t, true) ∧ withSSLRetryAttempts req = [true, false] ∧
      fetchKitDetails req = some t ∧ fetchKitDetailsAttempts req = [true, false]) ∧
    (∀ m, req true = .reqError m →
      withSSLRetry req = (none, false) ∧ withSSLRetryAttempts req = [true] ∧
      fetchKitDetails req = none ∧ fetchKitDetailsAttempts req = [true]) ∧
    (req true = .timeout →
      withSSLRetry req = (none, false) ∧ withSSLRetryAttempts req = [true] ∧
      fetchKitDetails req = none ∧ fetchKitDetailsAttempts req = [true]) := by
  refine ⟨?_, ?_, ?_⟩
  · intro t h1 h2
    simp [withSSLRetry, withSSLRetryAttempts, fetchKitDetails, fetchKitDetailsAttempts, h1, h2]
  · intro m h1
    simp [withSSLRetry, withSSLRetryAttempts, fetchKitDetails, fetchKitDetailsAttempts, h1]
  · intro h1
    simp [withSSLRetry, withSSLRetryAttempts, fetchKitDetails, fetchKitDetailsAttempts, h1]

/-- A request oracle whose verified attempt raises `SSLError` and whose
unverified attempt returns a 200. -/
def sslThenOkReq : Bool → ReqResult := fun verify => if verify then .sslError else .ok "page" 200

/-- C1 (witness): the trust-fallback theorem applied to a concrete
certificate-failure-then-200 request, with the discharged hypotheses
restated. -/
theorem withSSLRetry_trust_fallback_witness :
    sslThenOkReq true = .sslError ∧ sslThenOkReq false = .ok "page" 200 ∧
    (withSSLRetry sslThenOkReq = (some "page", true) ∧
     withSSLRetryAttempts sslThenOkReq = [true, false] ∧
     fetchKitDetails sslThenOkReq = some "page" ∧
     fetchKitDetailsAttempts sslThenOkReq = [true, false]) :=
  ⟨rfl, rfl, (withSSLRetry_trust_fallback sslThenOkReq).1 "page" rfl rfl⟩

/-! ## C2 — malformed release dates abort the page parse -/

/-- C2 (code evaluated at the failing input): the claim (and the spec's
stated design) says a row whose release-date string does not decompose
into exactly three tokens is skipped with a log and traversal continues.
The code instead lets `sanitizeYear`'s `ValueError` escape
`parseListings`: on a page whose first row has date text `March 2024`, the
whole parse raises, and the well-formed second row (which alone parses to
`["99123016002"]`) is lost. -/
theorem parseListings_malformed_date_raises :
    parseListings listingBad = .error (.valueError "Date format is incorrect") ∧
    parseListings listingPage = .ok ["99123016002"] :=
  ⟨rfl, rfl⟩

/-! ## C3 — missing title/price aborts the whole traversal -/

/-- C3 (code evaluated at the failing input): the claim (and the spec's
stated design) says a detail page missing the title heading or the price
label fails only that item.  The code instead raises `AttributeError`
(attribute access on `None`) inside `parseKitDetails`, and `src/scraper.py`
does not catch it: the whole listing traversal aborts.  With the price
label present the same run succeeds. -/
theorem parseKitDetails_missing_element_aborts :
    parseKitDetails detailNoPrice "99123016002" = .error .attributeError ∧
    parseKitDetails detailNoTitle "99123016002" = .error .attributeError ∧
    runScraper (fun _ => some detailNoPrice) [some listingPage] [] = .error .attributeError ∧
    runScraper (fun _ => some detailGood) [some listingPage] [] =
      .ok [⟨"Kit X", none, "£30.00", "99123016002"⟩] :=
  ⟨rfl, rfl, rfl, rfl⟩

/-! ## C6 — sequential appends build the array in insertion order -/

/-- C6: appending two records sequentially to an initially empty store
(whether the file holds the empty array or is an empty/invalid file)
yields the two-element array in insertion order, and the state persisted
after each single append is a JSON array (the full-file `json.dump`
rewrite). -/
theorem append_to_json_two_appends (a b : KitDetails) :
    append_to_json a (.jsonArr []) = .ok (.jsonArr [a]) ∧
    (append_to_json a (.jsonArr [])).bind (append_to_json b) = .ok (.jsonArr [a, b]) ∧
    append_to_json a .invalidJson = .ok (.jsonArr [a]) ∧
    (append_to_json a .invalidJson).bind (append_to_json b) = .ok (.jsonArr [a, b]) :=
  ⟨rfl, rfl, rfl, rfl⟩

/-! ## C7 — sanitizeYear -/

/-- C7 (counterexample): the claim offers `"not a date"` as an input that
does not split into exactly three whitespace-separated tokens and so
should fail.  In fact `"not a date".split()` is `["not", "a", "date"]` —
exactly three tokens — so `sanitizeYear` does not fail there: it returns
`"date"`. -/
theorem sanitizeYear_not_a_date_succeeds :
    pySplit "not a date" = ["not", "a", "date"] ∧
    sanitizeYear "not a date" = .ok "date" :=
  ⟨rfl, rfl⟩

/-- C7 (amended): `sanitizeYear "17 Mar 2024"` returns `"2024"`, and every
input that does not split into exactly three whitespace-separated tokens
(e.g. the single token `"not-a-date"`, but not `"not a date"`, which has
three tokens) fails with the one specific exception
`ValueError("Date format is incorrect")`. -/
theorem sanitizeYear_year_extraction :
    sanitizeYear "17 Mar 2024" = .ok "2024" ∧
    ∀ s, (pySplit s).length ≠ 3 →
      sanitizeYear s = .error (.valueError "Date format is incorrect") := by
  refine ⟨rfl, ?_⟩
  intro s h
  match hp : pySplit s with
  | [] => simp [sanitizeYear, hp]
  | [a] => simp [sanitizeYear, hp]
  | [a, b] => simp [sanitizeYear, hp]
  | [a, b, c] => exact absurd (by rw [hp] ; rfl) h
  | a :: b :: c :: d :: rest => simp [sanitizeYear, hp]

/-- C7 (witness): the amended theorem applied at the one-token input
`"not-a-date"`, with the discharged hypothesis restated. -/
theorem sanitizeYear_year_extraction_witness :
    (pySplit "not-a-date").length ≠ 3 ∧
    sanitizeYear "not-a-date" = .error (.valueError "Date format is incorrect") :=
  ⟨by decide, sanitizeYear_year_extraction.2 "not-a-date" (by decide)⟩

/-! ## C9 — append recovers from a missing or unparseable store file -/

/-- C9: when the store file is missing (`FileNotFoundError`) or its
contents are not valid JSON (`json.JSONDecodeError`), `append_to_json`
does not fail: it starts from the empty list and persists a one-element
array holding only the new record, discarding the unparseable contents. -/
theorem append_to_json_recovers_from_missing_or_invalid (item : KitDetails) :
    append_to_json item .missing = .ok (.jsonArr [item]) ∧
    append_to_json item .invalidJson = .ok (.jsonArr [item]) :=
  ⟨rfl, rfl⟩

/-! ## C4 — one outcome per page, ascending, total -/

/-- Unrolling of the page loop of `lib/fetchWeb.fetchListings`: one
`fetchPage` outcome per offset, in ascending page order. -/
theorem fetchListingsAux_eq (req : Nat → Bool → ReqResult) (n : Nat) :
    ∀ startPage, fetchListingsAux req startPage n
      = (List.range n).map (fun i => fetchPage (req (startPage + i))) := by
  induction n with
  | zero => intro s; rfl
  | succ n ih =>
      intro s
      rw [fetchListingsAux, List.range_succ_eq_map, ih (s + 1)]
      simp only [List.map_cons, List.map_map, Nat.add_zero, List.cons.injEq, true_and]
      refine List.map_congr_left fun i _ => ?_
      simp only [Function.comp_apply]
      have harith : s + 1 + i = s + (i + 1) := by omega
      rw [harith]

/-- Unrolling of the page loop of `lib_scraper/fetchWeb.fetchListings`. -/
theorem fetchListingsSessionAux_eq (req : Nat → ReqResult) (n : Nat) :
    ∀ startPage, fetchListingsSessionAux req startPage n
      = (List.range n).map (fun i => fetchPageSession (req (startPage + i))) := by
  induction n with
  | zero => intro s; rfl
  | succ n ih =>
      intro s
      rw [fetchListingsSessionAux, List.range_succ_eq_map, ih (s + 1)]
      simp only [List.map_cons, List.map_map, Nat.add_zero, List.cons.injEq, true_and]
      refine List.map_congr_left fun i _ => ?_
      simp only [Function.comp_apply]
      have harith : s + 1 + i = s + (i + 1) := by omega
      rw [harith]

/-- C4: both pagination generators, over any inclusive range
`[startPage, endPage]` and any request oracle, yield exactly the list
with one outcome per page index in strictly ascending order — the map of
the per-page fetch over `range (endPage + 1 - startPage)`.  Totality of
the functions embeds "never raises" (every `requests` exception is caught
inside the loop body), and the equation holds for failing oracles too, so
a failed page never halts the iteration: the sequence always continues
with the next index. -/
theorem fetchListings_one_outcome_per_page (req : Nat → Bool → ReqResult)
    (req2 : Nat → ReqResult) (startPage endPage : Nat) :
    fetchListings req startPage endPage
      = (List.range (endPage + 1 - startPage)).map (fun i => fetchPage (req (startPage + i))) ∧
    fetchListingsSession req2 startPage endPage
      = (List.range (endPage + 1 - startPage)).map
          (fun i => fetchPageSession (req2 (startPage + i))) :=
  ⟨fetchListingsAux_eq req _ startPage, fetchListingsSessionAux_eq req2 _ startPage⟩

/-! ## C5 — candidate exhaustion, first success wins -/

/-- Loop-step lemma for C5: a failing candidate at the head is attempted
and then skipped — the result, the remaining attempts and the number of
recorded successes are those of the tail. -/
theorem tryDownload_step_fail (getLink : String → Option String)
    (dl : String → String → Bool) (name sku : String) (b : Candidate) (l : List Candidate)
    (hb : candSucceeds getLink dl name sku b = false) :
    tryDownloadFromCandidates getLink dl name sku (b :: l)
      = tryDownloadFromCandidates getLink dl name sku l ∧
    (tryDownloadTrace getLink dl name sku (b :: l)).2.1
      = b :: (tryDownloadTrace getLink dl name sku l).2.1 ∧
    (tryDownloadTrace getLink dl name sku (b :: l)).2.2.count true
      = (tryDownloadTrace getLink dl name sku l).2.2.count true := by
  unfold candSucceeds at hb
  cases hg : getLink b.url with
  | none =>
      refine ⟨?_, ?_, ?_⟩
      · simp only [tryDownloadFromCandidates, hg]
      · simp only [tryDownloadTrace, hg]
      · simp only [tryDownloadTrace, hg]
  | some u =>
      rw [hg] at hb
      have hdl : dl u (createPdfFilepath sku (normalizeName name)) = false := hb
      refine ⟨?_, ?_, ?_⟩
      · simp [tryDownloadFromCandidates, hg, hdl]
      · simp [tryDownloadTrace, hg, hdl]
      · simp [tryDownloadTrace, hg, hdl, List.count_cons]

/-- Loop-step lemma for C5: a succeeding candidate at the head stops the
loop immediately with exactly that one candidate attempted and exactly one
recorded successful download. -/
theorem tryDownload_step_success (getLink : String → Option String)
    (dl : String → String → Bool) (name sku : String) (c : Candidate) (l : List Candidate)
    (hc : candSucceeds getLink dl name sku c = true) :
    tryDownloadFromCandidates getLink dl name sku (c :: l) = true ∧
    (tryDownloadTrace getLink dl name sku (c :: l)).2.1 = [c] ∧
    (tryDownloadTrace getLink dl name sku (c :: l)).2.2.count true = 1 := by
  unfold candSucceeds at hc
  cases hg : getLink c.url with
  | none =>
      rw [hg] at hc
      exact absurd (show false = true from hc) (by simp)
  | some u =>
      rw [hg] at hc
      have hdl : dl u (createPdfFilepath sku (normalizeName name)) = true := hc
      refine ⟨?_, ?_, ?_⟩
      · simp [tryDownloadFromCandidates, hg, hdl]
      · simp [tryDownloadTrace, hg, hdl]
      · simp [tryDownloadTrace, hg, hdl]

/-- Exhaustion half of C5: when no candidate succeeds, the loop returns
`False`, attempts every candidate in order, and records no successful
download. -/
theorem tryDownload_all_fail (getLink : String → Option String)
    (dl : String → String → Bool) (name sku : String) :
    ∀ l : List Candidate, (∀ b ∈ l, candSucceeds getLink dl name sku b = false) →
      tryDownloadFromCandidates getLink dl name sku l = false ∧
      (tryDownloadTrace getLink dl name sku l).2.1 = l ∧
      (tryDownloadTrace getLink dl name sku l).2.2.count true = 0 := by
  intro l
  induction l with
  | nil => intro _; exact ⟨rfl, rfl, rfl⟩
  | cons c rest ih =>
      intro h
      obtain ⟨e1, e2, e3⟩ :=
        tryDownload_step_fail getLink dl name sku c rest (h c (List.mem_cons_self c rest))
      have ih' := ih fun b hb => h b (List.mem_cons_of_mem c hb)
      exact ⟨e1.trans ih'.1, by rw [e2, ih'.2.1], by rw [e3, ih'.2.2]⟩

/-- C5: the download loop tries candidates strictly in order and stops at
the first candidate that yields both a document link and a successful
download — with failing candidates `l₁` before a succeeding candidate `c`,
the result is `True`, the candidates attempted are exactly `l₁ ++ [c]` (no
later candidate in `l₂` is ever tried), and exactly one successful
download is recorded; exhausting all candidates without a success returns
`False` with every candidate attempted and no success recorded. -/
theorem tryDownloadFromCandidates_first_success_wins (getLink : String → Option String)
    (dl : String → String → Bool) (name sku : String) :
    (∀ (l₁ : List Candidate) (c : Candidate) (l₂ : List Candidate),
      (∀ b ∈ l₁, candSucceeds getLink dl name sku b = false) →
      candSucceeds getLink dl name sku c = true →
      tryDownloadFromCandidates getLink dl name sku (l₁ ++ c :: l₂) = true ∧
      (tryDownloadTrace getLink dl name sku (l₁ ++ c :: l₂)).2.1 = l₁ ++ [c] ∧
      (tryDownloadTrace getLink dl name sku (l₁ ++ c :: l₂)).2.2.count true = 1) ∧
    (∀ l : List Candidate, (∀ b ∈ l, candSucceeds getLink dl name sku b = false) →
      tryDownloadFromCandidates getLink dl name sku l = false ∧
      (tryDownloadTrace getLink dl name sku l).2.1 = l ∧
      (tryDownloadTrace getLink dl name sku l).2.2.count true = 0) := by
  constructor
  · intro l₁
    induction l₁ with
    | nil =>
        intro c l₂ _ hc
        obtain ⟨e1, e2, e3⟩ := tryDownload_step_success getLink dl name sku c l₂ hc
        exact ⟨e1, e2, e3⟩
    | cons b rest ih =>
        intro c l₂ hfail hc
        have hb := hfail b (List.mem_cons_self b rest)
        have ih' := ih c l₂ (fun x hx => hfail x (List.mem_cons_of_mem b hx)) hc
        obtain ⟨e1, e2, e3⟩ := tryDownload_step_fail getLink dl name sku b (rest ++ c :: l₂) hb
        refine ⟨?_, ?_, ?_⟩
        · show tryDownloadFromCandidates getLink dl name sku (b :: (rest ++ c :: l₂)) = true
          rw [e1, ih'.1]
        · show (tryDownloadTrace getLink dl name sku (b :: (rest ++ c :: l₂))).2.1
            = b :: (rest ++ [c])
          rw [e2, ih'.2.1]
        · show (tryDownloadTrace getLink dl name sku (b :: (rest ++ c :: l₂))).2.2.count true = 1
          rw [e3, ih'.2.2]
  · exact tryDownload_all_fail getLink dl name sku

/-- A concrete link oracle: only the page at `u2` contains a PDF link. -/
def getLinkW : String → Option String := fun u => if u = "u2" then some "kit.pdf" else none

/-- A concrete download oracle that always succeeds. -/
def dlW : String → String → Bool := fun _ _ => true

/-- C5 (witness): three candidates of which only the second succeeds; the
first-success-wins theorem instantiated there shows the result is `True`,
only the first two candidates are attempted, and one success is
recorded. -/
theorem tryDownloadFromCandidates_first_success_wins_witness :
    candSucceeds getLinkW dlW "kit x" "99" ⟨"t1", "u1"⟩ = false ∧
    candSucceeds getLinkW dlW "kit x" "99" ⟨"t2", "u2"⟩ = true ∧
    (tryDownloadFromCandidates getLinkW dlW "kit x" "99"
      ([⟨"t1", "u1"⟩] ++ ⟨"t2", "u2"⟩ :: [⟨"t3", "u3"⟩]) = true ∧
    (tryDownloadTrace getLinkW dlW "kit x" "99"
      ([⟨"t1", "u1"⟩] ++ ⟨"t2", "u2"⟩ :: [⟨"t3", "u3"⟩])).2.1 = [⟨"t1", "u1"⟩] ++ [⟨"t2", "u2"⟩] ∧
    (tryDownloadTrace getLinkW dlW "kit x" "99"
      ([⟨"t1", "u1"⟩] ++ ⟨"t2", "u2"⟩ :: [⟨"t3", "u3"⟩])).2.2.count true = 1) :=
  ⟨by decide, by decide,
    (tryDownloadFromCandidates_first_success_wins getLinkW dlW "kit x" "99").1
      [⟨"t1", "u1"⟩] ⟨"t2", "u2"⟩ [⟨"t3", "u3"⟩] (by decide) (by decide)⟩

/-! ## C8 — first matching document link, case-insensitive -/

/-- The anchor loop equals a `find?` over the hrefs in page order, given
that every scanned node carries an href (which `anchorsWithHref`
guarantees). -/
theorem getPdfScan_eq_find :
    ∀ l : List Node, (∀ a ∈ l, (a.attr "href").isSome) →
      getPdfScan l = (l.filterMap (fun a => a.attr "href")).find?
        (fun href => endsWithChars (href.data.map lowerChar) ".pdf".data) := by
  intro l
  induction l with
  | nil => intro _; rfl
  | cons a rest ih =>
      intro h
      obtain ⟨v, hv⟩ := Option.isSome_iff_exists.mp (h a (List.mem_cons_self a rest))
      have ih' := ih fun b hb => h b (List.mem_cons_of_mem a hb)
      rw [getPdfScan, List.filterMap_cons, hv]
      simp only [Option.getD_some]
      cases hp : endsWithChars (v.data.map lowerChar) ".pdf".data with
      | true => simp [List.find?_cons_of_pos, hp]
      | false => simp [List.find?_cons_of_neg, hp, ih']

/-- C8: for every candidate page, `getPdfLink` returns the first anchor
href in page order whose lowercased form ends with `.pdf` (absent when no
anchor matches); the concrete pages show a link ending in `.PDF` is
matched identically to one ending in `.pdf`, that the first match in page
order wins, and that a page with no matching anchor yields `none`. -/
theorem getPdfLink_first_match :
    (∀ soup, getPdfLink soup
      = ((anchorsWithHref soup).filterMap (fun a => a.attr "href")).find?
          (fun href => endsWithChars (href.data.map lowerChar) ".pdf".data)) ∧
    getPdfLink candPageUpper = some "Files/Manual.PDF" ∧
    getPdfLink candPageLower = some "files/manual.pdf" ∧
    getPdfLink candPageNone = none := by
  refine ⟨?_, rfl, rfl, rfl⟩
  intro soup
  apply getPdfScan_eq_find
  intro a ha
  simp only [anchorsWithHref, soupFindAll] at ha
  have hpred := (List.mem_filter.mp ha).2
  simp only [Bool.and_eq_true] at hpred
  exact hpred.2

/-! ## C10 — name normalization is idempotent -/

/-- Membership survives `dropWhile`. -/
theorem mem_of_mem_dropWhile {p : Char → Bool} :
    ∀ {l : List Char} {c : Char}, c ∈ l.dropWhile p → c ∈ l := by
  intro l
  induction l with
  | nil => intro c h; simp at h
  | cons a rest ih =>
      intro c h
      by_cases hp : p a = true
      · rw [List.dropWhile_cons_of_pos hp] at h
        exact List.mem_cons_of_mem a (ih h)
      · rw [List.dropWhile_cons_of_neg hp] at h
        exact h

/-- Membership survives `pyStripList`. -/
theorem mem_of_mem_pyStripList {l : List Char} {c : Char} (h : c ∈ pyStripList l) : c ∈ l := by
  unfold pyStripList at h
  rw [List.mem_reverse] at h
  have h2 := mem_of_mem_dropWhile h
  rw [List.mem_reverse] at h2
  exact mem_of_mem_dropWhile h2

/-- A kept character (lowercase letter, digit, whitespace or hyphen) is
unchanged by `lowerChar`. -/
theorem lowerChar_of_kept {c : Char} (h : isKeptChar c = true) : lowerChar c = c := by
  unfold isKeptChar isPyWS at h
  simp only [Bool.or_eq_true, decide_eq_true_eq] at h
  have hno : ¬(65 ≤ c.toNat ∧ c.toNat ≤ 90) := by
    rcases h with ((⟨h1, h2⟩ | ⟨h1, h2⟩) | (h | h | h | h | h | h)) | h <;> omega
  rw [lowerChar, if_neg hno]

/-- A list of kept characters contains no mojibake byte, so
`replaceMojibake` leaves it unchanged. -/
theorem replaceMojibake_of_kept :
    ∀ l : List Char, (∀ c ∈ l, isKeptChar c = true) → replaceMojibake l = l := by
  intro l
  induction l using replaceMojibake.induct with
  | case1 => intro _; rfl
  | case2 c => intro _; rfl
  | case3 c1 c2 => intro _; rfl
  | case4 c1 c2 c3 rest h1 ih =>
      intro h
      exfalso
      have hk := h c1 (List.mem_cons_self c1 _)
      rw [h1.1] at hk
      exact absurd hk (by decide)
  | case5 c1 c2 c3 rest h1 ih =>
      intro h
      rw [replaceMojibake, if_neg h1, ih (fun c hc => h c (List.mem_cons_of_mem c1 hc))]

/-- `dropWhile` is idempotent. -/
theorem dropWhile_dropWhile {p : Char → Bool} :
    ∀ l : List Char, (l.dropWhile p).dropWhile p = l.dropWhile p := by
  intro l
  induction l with
  | nil => rfl
  | cons a rest ih =>
      by_cases hp : p a = true
      · rw [List.dropWhile_cons_of_pos hp, ih]
      · rw [List.dropWhile_cons_of_neg hp, List.dropWhile_cons_of_neg hp]

/-- `dropWhile` keeps the final element when it fails the predicate. -/
theorem dropWhile_append_last {p : Char → Bool} {a : Char} (ha : p a = false) :
    ∀ xs : List Char, ∃ s, (xs ++ [a]).dropWhile p = s ++ [a] := by
  intro xs
  induction xs with
  | nil =>
      refine ⟨[], ?_⟩
      have hpa : ¬(p a = true) := by rw [ha]; exact Bool.false_ne_true
      rw [List.nil_append, List.dropWhile_cons_of_neg hpa]
  | cons x rest ih =>
      by_cases hp : p x = true
      · obtain ⟨s, hs⟩ := ih
        exact ⟨s, by rw [List.cons_append, List.dropWhile_cons_of_pos hp, hs]⟩
      · exact ⟨x :: rest, by rw [List.cons_append, List.dropWhile_cons_of_neg hp]⟩

/-- The head of a `dropWhile` result fails the predicate. -/
theorem dropWhile_head_false {p : Char → Bool} :
    ∀ {l : List Char} {a : Char} {rest : List Char}, l.dropWhile p = a :: rest → p a = false := by
  intro l
  induction l with
  | nil => intro a rest h; exact absurd h (by simp)
  | cons x xs ih =>
      intro a rest h
      by_cases hp : p x = true
      · rw [List.dropWhile_cons_of_pos hp] at h
        exact ih h
      · rw [List.dropWhile_cons_of_neg hp] at h
        cases h
        exact Bool.eq_false_iff.mpr hp

/-- Stripping is idempotent. -/
theorem pyStripList_idem (l : List Char) : pyStripList (pyStripList l) = pyStripList l := by
  unfold pyStripList
  cases hd : l.dropWhile isPyWS with
  | nil => simp
  | cons a d' =>
      have ha : isPyWS a = false := dropWhile_head_false hd
      obtain ⟨s, hs⟩ := dropWhile_append_last ha d'.reverse
      have hrev : (a :: d').reverse = d'.reverse ++ [a] := by
        rw [List.reverse_cons]
      rw [hrev, hs]
      have hy : (s ++ [a]).reverse = a :: s.reverse := by simp
      have hpa : ¬(isPyWS a = true) := by rw [ha]; exact Bool.false_ne_true
      rw [hy, List.dropWhile_cons_of_neg hpa]
      have hback : (a :: s.reverse).reverse = s ++ [a] := by simp
      rw [hback, ← hs, dropWhile_dropWhile, hs, hy]

/-- Every character surviving `normalizeChars` is a kept character. -/
theorem kept_of_mem_normalizeChars {l : List Char} {c : Char} (h : c ∈ normalizeChars l) :
    isKeptChar c = true := by
  unfold normalizeChars at h
  exact (List.mem_filter.mp (mem_of_mem_pyStripList h)).2

/-- Idempotence of normalization at the character-list level. -/
theorem normalizeChars_idem (l : List Char) : normalizeChars (normalizeChars l) = normalizeChars l := by
  have hkept : ∀ c ∈ normalizeChars l, isKeptChar c = true :=
    fun c hc => kept_of_mem_normalizeChars hc
  have h1 : (normalizeChars l).map lowerChar = normalizeChars l := by
    conv_rhs => rw [← List.map_id (normalizeChars l)]
    exact List.map_congr_left fun a ha => lowerChar_of_kept (hkept a ha)
  have h2 : replaceMojibake (normalizeChars l) = normalizeChars l :=
    replaceMojibake_of_kept _ hkept
  have h3 : (normalizeChars l).filter isKeptChar = normalizeChars l :=
    List.filter_eq_self.mpr hkept
  calc normalizeChars (normalizeChars l)
      = pyStripList ((replaceMojibake ((normalizeChars l).map lowerChar)).filter isKeptChar) := rfl
    _ = pyStripList (normalizeChars l) := by rw [h1, h2, h3]
    _ = normalizeChars l := pyStripList_idem _

/-- C10: `normalizeName` is idempotent — normalizing an already-normalized
name changes nothing, for every input string. -/
theorem normalizeName_idempotent (s : String) : normalizeName (normalizeName s) = normalizeName s := by
  show (⟨normalizeChars (normalizeChars s.data)⟩ : String) = ⟨normalizeChars s.data⟩
  rw [normalizeChars_idem]

end Miniswap
